import Mathlib

set_option maxHeartbeats 1000000
set_option maxRecDepth 8000

namespace VampIr

/-! Shallow embedding of the vamp-ir arithmetic-circuit synthesis core
(src/halo2/synth.rs and src/plonk/synth.rs).  The prime field of each
backend is modelled as `ZMod p` for a parameter `p`; signed big integers
are `ℤ`, unsigned big integers are `ℕ`, and the `HashMap`s of the source
are association lists whose lookup returns the most recent insertion. -/

/-- Operators of the three-address constraint language (the `InfixOp` type of
the upstream ast module, reconstructed from its uses in the two synthesizers:
Add, Subtract, Multiply, Divide, DivideZ, IntDivide, Modulo, Exponentiate,
Equal). -/
inductive Op : Type
  | add
  | sub
  | mul
  | div
  | divz
  | intdiv
  | mod
  | pow
  | eq
deriving DecidableEq

/-- Expressions (the upstream `Expr`/`TExpr` with the type annotation erased:
both synthesizers only ever match on the `.v` component of a `TExpr`). -/
inductive Expr : Type
  | const (c : ℤ)
  | var (v : ℕ)
  | neg (e : Expr)
  | bin (op : Op) (a b : Expr)
deriving DecidableEq

/-- Definition patterns; the synthesis core only distinguishes plain variable
patterns (`Pat::Variable`) from every other pattern shape. -/
inductive Pat : Type
  | var (v : ℕ)
  | other
deriving DecidableEq

/-- A parsed module: definition bindings, constraint expressions and public
variables (spec section 3; the `Module` struct lives in the upstream ast). -/
structure Module : Type where
  defs : List (Pat × Expr)
  exprs : List Expr
  pubs : List ℕ
deriving DecidableEq

/-- Lookup in an association list standing for a `HashMap`; inserts cons to
the front, so the first hit is the most recent insertion (overwrite
semantics). -/
def lookupA {α : Type} : List (ℕ × α) → ℕ → Option α
  | [], _ => none
  | (k, v) :: rest, i => if k = i then some v else lookupA rest i

namespace Plonk

/-- plonk/synth.rs `make_constant`: `F::from(c.magnitude())` (full reduction
of the magnitude mod p) negated unless `c.is_positive()`. -/
def make_constant (p : ℕ) (c : ℤ) : ZMod p :=
  if 0 < c then ((c.natAbs : ZMod p)) else -((c.natAbs : ZMod p))

end Plonk

namespace Halo2

/-- halo2/synth.rs `make_constant`: the magnitude is rendered as little-endian
bytes, `resize`d to exactly 64 bytes (which truncates magnitudes of 512 bits
or more to their low 512 bits), then reduced mod p by `from_bytes_wide`;
negated unless `c.is_positive()`. -/
def make_constant (p : ℕ) (c : ℤ) : ZMod p :=
  if 0 < c then (((c.natAbs % 2 ^ 512 : ℕ) : ZMod p))
  else -(((c.natAbs % 2 ^ 512 : ℕ) : ZMod p))

/-- The k-computation loop of `Halo2Module::new`: repeatedly halve
`circuit_size`, counting iterations, until it reaches zero. -/
def kLoop : ℕ → ℕ → ℕ
  | 0, k => k
  | n + 1, k => kLoop ((n + 1) / 2) (k + 1)
termination_by n _ => n
decreasing_by simp_wf; omega

/-- halo2/synth.rs `Halo2Module::new`, k component: `ROW_PADDING = 8` is added
to the number of constraints and the shift loop above is run. -/
def computeK (numConstraints : ℕ) : ℕ :=
  kLoop (numConstraints + 8) 0

end Halo2

/-- Rust `usize::next_power_of_two` as used by the plonk backend: 1 for
`n ≤ 1`, otherwise two to the bit length of `n - 1`. -/
def nextPowerOfTwo (n : ℕ) : ℕ :=
  if n ≤ 1 then 1 else 2 ^ Halo2.kLoop (n - 1) 0

/-- plonk/synth.rs `padded_circuit_size`: constraint count plus public-input
count plus the 4 builtin gates, rounded up to a power of two. -/
def Plonk.padded_circuit_size (m : Module) : ℕ :=
  nextPowerOfTwo (m.exprs.length + m.pubs.length + 4)

/-- Spec wording of `make_constant` (section 4.1): take `|c|` modulo p and
negate the result when `c < 0`.  Declared only to compare the two code
definitions against the claim. -/
def specMakeConstant (p : ℕ) (c : ℤ) : ZMod p :=
  if c < 0 then -((c.natAbs : ZMod p)) else ((c.natAbs : ZMod p))

/-- Generic witness evaluator shared by the two backends (they differ only in
their `make_constant` and in whether a `DivideZ` arm is present, plonk yes /
halo2 no — the `dz` flag).  Mirrors `evaluate_expr` of both synth.rs files;
`none` models a panic (missing definition key, strict division by zero,
integer division or modulo by zero, or an `unreachable!` arm) and fuel
exhaustion models non-termination on cyclic definitions.  The state is the
mutable `assigns` map, threaded left to right exactly as Rust evaluates. -/
def evalExpr (p : ℕ) (mk : ℤ → ZMod p) (dz : Bool) :
    ℕ → Expr → List (ℕ × Expr) → List (ℕ × ZMod p) →
      Option (ZMod p × List (ℕ × ZMod p))
  | 0, _, _, _ => none
  | _ + 1, .const c, _, σ => some (mk c, σ)
  | fuel + 1, .var v, defs, σ =>
    match lookupA σ v with
    | some val => some (val, σ)
    | none =>
      match lookupA defs v with
      | some de =>
        match evalExpr p mk dz fuel de defs σ with
        | some (val, σ2) => some (val, (v, val) :: σ2)
        | none => none
      | none => none
  | fuel + 1, .neg e, defs, σ =>
    match evalExpr p mk dz fuel e defs σ with
    | some (x, σ2) => some (-x, σ2)
    | none => none
  | fuel + 1, .bin .add a b, defs, σ =>
    match evalExpr p mk dz fuel a defs σ with
    | some (x, σ2) =>
      match evalExpr p mk dz fuel b defs σ2 with
      | some (y, σ3) => some (x + y, σ3)
      | none => none
    | none => none
  | fuel + 1, .bin .sub a b, defs, σ =>
    match evalExpr p mk dz fuel a defs σ with
    | some (x, σ2) =>
      match evalExpr p mk dz fuel b defs σ2 with
      | some (y, σ3) => some (x - y, σ3)
      | none => none
    | none => none
  | fuel + 1, .bin .mul a b, defs, σ =>
    match evalExpr p mk dz fuel a defs σ with
    | some (x, σ2) =>
      match evalExpr p mk dz fuel b defs σ2 with
      | some (y, σ3) => some (x * y, σ3)
      | none => none
    | none => none
  | fuel + 1, .bin .div a b, defs, σ =>
    match evalExpr p mk dz fuel a defs σ with
    | some (x, σ2) =>
      match evalExpr p mk dz fuel b defs σ2 with
      | some (y, σ3) => if y = 0 then none else some (x * y⁻¹, σ3)
      | none => none
    | none => none
  | fuel + 1, .bin .divz a b, defs, σ =>
    if dz then
      match evalExpr p mk dz fuel b defs σ with
      | some (y, σ2) =>
        if y = 0 then some (0, σ2)
        else
          match evalExpr p mk dz fuel a defs σ2 with
          | some (x, σ3) => some (x * y⁻¹, σ3)
          | none => none
      | none => none
    else none
  | fuel + 1, .bin .intdiv a b, defs, σ =>
    match evalExpr p mk dz fuel a defs σ with
    | some (x, σ2) =>
      match evalExpr p mk dz fuel b defs σ2 with
      | some (y, σ3) =>
        if y.val = 0 then none else some (((x.val / y.val : ℕ) : ZMod p), σ3)
      | none => none
    | none => none
  | fuel + 1, .bin .mod a b, defs, σ =>
    match evalExpr p mk dz fuel a defs σ with
    | some (x, σ2) =>
      match evalExpr p mk dz fuel b defs σ2 with
      | some (y, σ3) =>
        if y.val = 0 then none else some (((x.val % y.val : ℕ) : ZMod p), σ3)
      | none => none
    | none => none
  | _ + 1, .bin .pow _ _, _, _ => none
  | _ + 1, .bin .eq _ _, _, _ => none

/-- plonk/synth.rs `evaluate_expr` (strict divide panics, `DivideZ` present). -/
def Plonk.evaluate_expr (p : ℕ) (fuel : ℕ) (e : Expr) (defs : List (ℕ × Expr))
    (σ : List (ℕ × ZMod p)) : Option (ZMod p × List (ℕ × ZMod p)) :=
  evalExpr p (Plonk.make_constant p) true fuel e defs σ

/-- halo2/synth.rs `evaluate_expr` (no `DivideZ` arm: it falls through to the
`unreachable!` catch-all). -/
def Halo2.evaluate_expr (p : ℕ) (fuel : ℕ) (e : Expr) (defs : List (ℕ × Expr))
    (σ : List (ℕ × ZMod p)) : Option (ZMod p × List (ℕ × ZMod p)) :=
  evalExpr p (Halo2.make_constant p) false fuel e defs σ

/-- The definition map built at the top of `populate_variables`: bindings
whose pattern is a plain variable, inserted in order (later bindings
overwrite earlier ones, hence the cons to the front). -/
def buildDefsAux : List (Pat × Expr) → List (ℕ × Expr) → List (ℕ × Expr)
  | [], acc => acc
  | (Pat.var v, e) :: rest, acc => buildDefsAux rest ((v, e) :: acc)
  | (Pat.other, _) :: rest, acc => buildDefsAux rest acc

def buildDefs (defs : List (Pat × Expr)) : List (ℕ × Expr) :=
  buildDefsAux defs []

/-- The witness-derivation loop of `populate_variables`: for each variable of
the module (the key set of `variable_map`, given here as the list `vars`),
evaluate `Variable(v)` with the shared mutable `assigns` map `σ` and record
the result; a panic anywhere aborts the whole call. -/
def populateAux (p : ℕ) (mk : ℤ → ZMod p) (dz : Bool) (fuel : ℕ)
    (defs : List (ℕ × Expr)) :
    List ℕ → List (ℕ × ZMod p) → List (ℕ × ZMod p) →
      Option (List (ℕ × ZMod p))
  | [], _, acc => some acc
  | v :: rest, σ, acc =>
    match evalExpr p mk dz fuel (.var v) defs σ with
    | some (val, σ2) => populateAux p mk dz fuel defs rest σ2 ((v, val) :: acc)
    | none => none

/-- `populate_variables` generically over the backend; `vars` is the key set
of the module's witness map and `inputs` the user-supplied assignments that
seed the evaluator's `assigns` map. -/
def populateVariables (p : ℕ) (mk : ℤ → ZMod p) (dz : Bool) (fuel : ℕ)
    (m : Module) (vars : List ℕ) (inputs : List (ℕ × ZMod p)) :
    Option (List (ℕ × ZMod p)) :=
  populateAux p mk dz fuel (buildDefs m.defs) vars inputs []

def Plonk.populate_variables (p : ℕ) (fuel : ℕ) (m : Module) (vars : List ℕ)
    (inputs : List (ℕ × ZMod p)) : Option (List (ℕ × ZMod p)) :=
  populateVariables p (Plonk.make_constant p) true fuel m vars inputs

def Halo2.populate_variables (p : ℕ) (fuel : ℕ) (m : Module) (vars : List ℕ)
    (inputs : List (ℕ × ZMod p)) : Option (List (ℕ × ZMod p)) :=
  populateVariables p (Halo2.make_constant p) false fuel m vars inputs

/-- Cache-free big-step evaluation relation: the meaning of "the evaluation of
an expression against the definition map seeded with the inputs".  It is
`evalExpr` stripped of its memoization state: a variable takes its
user-supplied input value if one exists and otherwise the value of its
definition. -/
inductive EvalR (p : ℕ) (mk : ℤ → ZMod p) (dz : Bool) (defs : List (ℕ × Expr))
    (inputs : List (ℕ × ZMod p)) : Expr → ZMod p → Prop
  | const (c : ℤ) : EvalR p mk dz defs inputs (.const c) (mk c)
  | varInput (v : ℕ) (x : ZMod p) (h : lookupA inputs v = some x) :
      EvalR p mk dz defs inputs (.var v) x
  | varDef (v : ℕ) (e : Expr) (x : ZMod p) (h1 : lookupA inputs v = none)
      (h2 : lookupA defs v = some e) (h3 : EvalR p mk dz defs inputs e x) :
      EvalR p mk dz defs inputs (.var v) x
  | neg (e : Expr) (x : ZMod p) (h : EvalR p mk dz defs inputs e x) :
      EvalR p mk dz defs inputs (.neg e) (-x)
  | add (a b : Expr) (x y : ZMod p) (ha : EvalR p mk dz defs inputs a x)
      (hb : EvalR p mk dz defs inputs b y) :
      EvalR p mk dz defs inputs (.bin .add a b) (x + y)
  | sub (a b : Expr) (x y : ZMod p) (ha : EvalR p mk dz defs inputs a x)
      (hb : EvalR p mk dz defs inputs b y) :
      EvalR p mk dz defs inputs (.bin .sub a b) (x - y)
  | mul (a b : Expr) (x y : ZMod p) (ha : EvalR p mk dz defs inputs a x)
      (hb : EvalR p mk dz defs inputs b y) :
      EvalR p mk dz defs inputs (.bin .mul a b) (x * y)
  | div (a b : Expr) (x y : ZMod p) (ha : EvalR p mk dz defs inputs a x)
      (hb : EvalR p mk dz defs inputs b y) (hy : y ≠ 0) :
      EvalR p mk dz defs inputs (.bin .div a b) (x * y⁻¹)
  | divzZero (a b : Expr) (hdz : dz = true)
      (hb : EvalR p mk dz defs inputs b 0) :
      EvalR p mk dz defs inputs (.bin .divz a b) 0
  | divz (a b : Expr) (x y : ZMod p) (hdz : dz = true)
      (hb : EvalR p mk dz defs inputs b y) (hy : y ≠ 0)
      (ha : EvalR p mk dz defs inputs a x) :
      EvalR p mk dz defs inputs (.bin .divz a b) (x * y⁻¹)
  | intdiv (a b : Expr) (x y : ZMod p) (ha : EvalR p mk dz defs inputs a x)
      (hb : EvalR p mk dz defs inputs b y) (hy : y.val ≠ 0) :
      EvalR p mk dz defs inputs (.bin .intdiv a b) ((x.val / y.val : ℕ))
  | mod (a b : Expr) (x y : ZMod p) (ha : EvalR p mk dz defs inputs a x)
      (hb : EvalR p mk dz defs inputs b y) (hy : y.val ≠ 0) :
      EvalR p mk dz defs inputs (.bin .mod a b) ((x.val % y.val : ℕ))

theorem Halo2.kLoop_add (n : ℕ) : ∀ k : ℕ, Halo2.kLoop n k = Halo2.kLoop n 0 + k := by
  induction n using Nat.strong_induction_on with
  | _ n ih =>
    intro k
    match n with
    | 0 => simp [Halo2.kLoop]
    | m + 1 =>
      rw [Halo2.kLoop, Halo2.kLoop, ih ((m + 1) / 2) (by omega) (k + 1),
        ih ((m + 1) / 2) (by omega) 1]
      omega

theorem Halo2.lt_two_pow_kLoop (n : ℕ) : n < 2 ^ Halo2.kLoop n 0 := by
  induction n using Nat.strong_induction_on with
  | _ n ih =>
    match n with
    | 0 => simp [Halo2.kLoop]
    | m + 1 =>
      rw [Halo2.kLoop, Halo2.kLoop_add]
      simp only [Nat.zero_add]
      have h := ih ((m + 1) / 2) (by omega)
      have h2 : 2 ^ (Halo2.kLoop ((m + 1) / 2) 0 + 1) = 2 * 2 ^ Halo2.kLoop ((m + 1) / 2) 0 := by
        ring
      omega

theorem Halo2.kLoop_le_of_lt_two_pow (n : ℕ) :
    ∀ j : ℕ, n < 2 ^ j → Halo2.kLoop n 0 ≤ j := by
  induction n using Nat.strong_induction_on with
  | _ n ih =>
    intro j hj
    match n with
    | 0 => simp [Halo2.kLoop]
    | m + 1 =>
      match j with
      | 0 => omega
      | t + 1 =>
        rw [Halo2.kLoop, Halo2.kLoop_add]
        have h2 : 2 ^ (t + 1) = 2 * 2 ^ t := by ring
        have h3 : (m + 1) / 2 < 2 ^ t := by omega
        have h4 := ih ((m + 1) / 2) (by omega) t h3
        omega

/-- A single arithmetic gate row.  Wires are variable ids, `none` standing for
the circuit's zero variable / zero cell; the field defaults are the
`ArithmeticGate` defaults of the plonk composer library (all selectors zero
except the output selector, which defaults to `-1`; every plonk arm that
leaves it defaulted wires the `c` slot to the zero variable, so the default
never contributes to the gate value).  The halo2 emitter sets every selector
explicitly. -/
structure Gate (p : ℕ) where
  a : Option ℕ := none
  b : Option ℕ := none
  c : Option ℕ := none
  ql : ZMod p := 0
  qr : ZMod p := 0
  qo : ZMod p := -1
  qm : ZMod p := 0
  qc : ZMod p := 0
  pi : ZMod p := 0
deriving DecidableEq

/-- Value of a wire under a witness map (the zero wire always reads 0). -/
def wireVal (p : ℕ) (w : List (ℕ × ZMod p)) : Option ℕ → ZMod p
  | none => 0
  | some v => (lookupA w v).getD 0

/-- The gate equation enforced by both backends (halo2/synth.rs `configure`,
line "Combined add-mult": `a·sl + b·sr + a·b·sm + c·so + sc`; the plonk
composer adds the public-input term `pi`). -/
def gateValue (p : ℕ) (g : Gate p) (w : List (ℕ × ZMod p)) : ZMod p :=
  g.ql * wireVal p w g.a + g.qr * wireVal p w g.b +
    g.qm * (wireVal p w g.a * wireVal p w g.b) + g.qo * wireVal p w g.c +
    g.qc + g.pi

/-- Outcome of dispatching one constraint-list expression to a gate emitter:
exactly one gate, the `unsupported constraint` panic carrying the offending
expression, a panic caused by field division by a zero constant inside an
arm, or a silent skip (the `if let Expr::Infix(InfixOp::Equal, ..)` guard did
not match, so the loop body does nothing). -/
inductive EmitResult (p : ℕ) : Type
  | gate (g : Gate p)
  | fatal (e : Expr)
  | divZero
  | skipped
deriving DecidableEq

namespace Plonk

/-- plonk/synth.rs `gadget`, constraint dispatch: the full pattern match on
`(lhs, rhs)` of an equality, arm for arm in source order.  Each arm builds
one `composer.arithmetic_gate` call; `mk` is `make_constant`.  Arms whose
selector computation divides by a field constant return `.divZero` when that
constant is zero (arkworks field division panics).  The two `***` arms
`c1 = c2 / v3` and `c1 = c2 | v3` set no `add` selector, exactly as in the
source. -/
def gateFor (p : ℕ) (lhs rhs : Expr) : EmitResult p :=
  let mk := Plonk.make_constant p
  match lhs, rhs with
  | .var v1, .var v2 =>
    .gate { a := some v1, b := some v2, c := none, ql := 1, qr := -1 }
  | .var v1, .const c2 =>
    .gate { a := some v1, b := none, c := none, ql := 1, qr := 0, qc := mk (-c2) }
  | .var v1, .neg (.const c2) =>
    .gate { a := some v1, b := none, c := none, ql := 1, qr := 0, qc := mk c2 }
  | .var v1, .neg (.var v2) =>
    .gate { a := some v1, b := some v2, c := none, ql := 1, qr := 1 }
  | .var v1, .bin .add (.const c2) (.const c3) =>
    .gate { a := some v1, b := none, c := none, ql := 1, qr := 0, qc := mk (-c2 - c3) }
  | .var v1, .bin .add (.var v2) (.const c3) =>
    .gate { a := some v1, b := some v2, c := none, ql := 1, qr := -1, qc := mk (-c3) }
  | .var v1, .bin .add (.const c2) (.var v3) =>
    .gate { a := some v1, b := some v3, c := none, ql := 1, qr := -1, qc := mk (-c2) }
  | .var v1, .bin .add (.var v2) (.var v3) =>
    .gate { a := some v1, b := some v2, c := some v3, ql := 1, qr := -1, qo := -1 }
  | .var v1, .bin .sub (.const c2) (.const c3) =>
    .gate { a := some v1, b := none, c := none, ql := 1, qr := 0, qc := mk (-c2 + c3) }
  | .var v1, .bin .sub (.var v2) (.const c3) =>
    .gate { a := some v1, b := some v2, c := none, ql := 1, qr := -1, qc := mk c3 }
  | .var v1, .bin .sub (.const c2) (.var v3) =>
    .gate { a := some v1, b := some v3, c := none, ql := 1, qr := 1, qc := mk (-c2) }
  | .var v1, .bin .sub (.var v2) (.var v3) =>
    .gate { a := some v1, b := some v2, c := some v3, ql := 1, qr := -1, qo := 1 }
  | .var v1, .bin .div (.const c2) (.const c3) =>
    if mk c3 = 0 then .divZero
    else .gate { a := some v1, b := none, c := none, ql := 1, qr := 0,
                 qc := -(mk c2 * (mk c3)⁻¹) }
  | .var v1, .bin .div (.var v2) (.const c3) =>
    if mk c3 = 0 then .divZero
    else .gate { a := some v1, b := some v2, c := none, ql := 1, qr := -((mk c3)⁻¹) }
  | .var v1, .bin .div (.const c2) (.var v3) =>
    .gate { a := some v1, b := some v3, c := none, qm := 1, qc := -(mk c2) }
  | .var v1, .bin .div (.var v2) (.var v3) =>
    .gate { a := some v1, b := some v3, c := some v2, qm := 1, qo := -1 }
  | .var v1, .bin .divz (.const c2) (.const c3) =>
    .gate { a := some v1, b := none, c := none, ql := 1, qr := 0,
            qc := -(if mk c3 = 0 then 0 else mk c2 * (mk c3)⁻¹) }
  | .var v1, .bin .divz (.var v2) (.const c3) =>
    .gate { a := some v1, b := some v2, c := none, ql := 1,
            qr := -(if mk c3 = 0 then 0 else (mk c3)⁻¹) }
  | .var v1, .bin .divz (.const c2) (.var v3) =>
    .gate { a := some v1, b := some v3, c := none, qm := 1, qc := -(mk c2) }
  | .var v1, .bin .divz (.var v2) (.var v3) =>
    .gate { a := some v1, b := some v3, c := some v2, qm := 1, qo := -1 }
  | .var v1, .bin .mul (.const c2) (.const c3) =>
    .gate { a := some v1, b := none, c := none, ql := 1, qr := 0,
            qc := -(mk c2 * mk c3) }
  | .var v1, .bin .mul (.var v2) (.const c3) =>
    .gate { a := some v1, b := some v2, c := none, ql := 1, qr := -(mk c3) }
  | .var v1, .bin .mul (.const c2) (.var v3) =>
    .gate { a := some v1, b := some v3, c := none, ql := 1, qr := -(mk c2) }
  | .var v1, .bin .mul (.var v2) (.var v3) =>
    .gate { a := some v2, b := some v3, c := some v1, qm := 1, qo := -1 }
  | .const c1, .var v2 =>
    .gate { a := some v2, b := none, c := none, ql := 1, qr := 0, qc := mk (-c1) }
  | .const c1, .const c2 =>
    .gate { a := none, b := none, c := none, ql := 0, qr := 0, qc := mk (c2 - c1) }
  | .const c1, .neg (.const c2) =>
    .gate { a := none, b := none, c := none, ql := 0, qr := 0, qc := mk (c1 + c2) }
  | .const c1, .neg (.var v2) =>
    .gate { a := some v2, b := none, c := none, ql := 1, qr := 0, qc := mk c1 }
  | .const c1, .bin .add (.const c2) (.const c3) =>
    .gate { a := none, b := none, c := none, ql := 0, qr := 0, qc := mk (c1 - c2 - c3) }
  | .const c1, .bin .add (.var v2) (.const c3) =>
    .gate { a := some v2, b := none, c := none, ql := 1, qr := 0, qc := mk (c3 - c1) }
  | .const c1, .bin .add (.const c2) (.var v3) =>
    .gate { a := some v3, b := none, c := none, ql := 1, qr := 0, qc := mk (c2 - c1) }
  | .const c1, .bin .add (.var v2) (.var v3) =>
    .gate { a := some v2, b := some v3, c := none, ql := 1, qr := 1, qc := mk (-c1) }
  | .const c1, .bin .sub (.const c2) (.const c3) =>
    .gate { a := none, b := none, c := none, ql := 0, qr := 0, qc := mk (c2 - c3 - c1) }
  | .const c1, .bin .sub (.var v2) (.const c3) =>
    .gate { a := some v2, b := none, c := none, ql := 1, qr := 0, qc := mk (-c3 - c1) }
  | .const c1, .bin .sub (.const c2) (.var v3) =>
    .gate { a := some v3, b := none, c := none, ql := 1, qr := 0, qc := mk (c1 - c2) }
  | .const c1, .bin .sub (.var v2) (.var v3) =>
    .gate { a := some v2, b := some v3, c := none, ql := 1, qr := -1, qc := mk (-c1) }
  | .const c1, .bin .div (.const c2) (.const c3) =>
    if mk c3 = 0 then .divZero
    else .gate { a := none, b := none, c := none, ql := 0, qr := 0,
                 qc := mk c1 - mk c2 * (mk c3)⁻¹ }
  | .const c1, .bin .div (.var v2) (.const c3) =>
    .gate { a := some v2, b := none, c := none, ql := 1, qr := 0,
            qc := -(mk c1 * mk c3) }
  | .const c1, .bin .div (.const c2) (.var v3) =>
    if mk c1 = 0 then .divZero
    else .gate { a := some v3, b := none, c := none,
                 qc := -(mk c2 * (mk c1)⁻¹) }
  | .const c1, .bin .div (.var v2) (.var v3) =>
    .gate { a := some v2, b := some v3, c := none, ql := 1, qr := -(mk c1) }
  | .const c1, .bin .divz (.const c2) (.const c3) =>
    .gate { a := none, b := none, c := none, ql := 0, qr := 0,
            qc := mk c1 - (if mk c3 = 0 then 0 else mk c2 * (mk c3)⁻¹) }
  | .const c1, .bin .divz (.var v2) (.const c3) =>
    .gate { a := some v2, b := none, c := none, ql := 1, qr := 0,
            qc := -(mk c1 * mk c3) }
  | .const c1, .bin .divz (.const c2) (.var v3) =>
    .gate { a := some v3, b := none, c := none,
            qc := -(if mk c1 = 0 then 0 else mk c2 * (mk c1)⁻¹) }
  | .const c1, .bin .divz (.var v2) (.var v3) =>
    .gate { a := some v2, b := some v3, c := none, ql := 1, qr := -(mk c1) }
  | .const c1, .bin .mul (.const c2) (.const c3) =>
    .gate { a := none, b := none, c := none, ql := 0, qr := 0,
            qc := mk c1 - mk c2 * mk c3 }
  | .const c1, .bin .mul (.var v2) (.const c3) =>
    .gate { a := some v2, b := none, c := none, ql := mk c3, qr := 0, qc := -(mk c1) }
  | .const c1, .bin .mul (.const c2) (.var v3) =>
    .gate { a := some v3, b := none, c := none, ql := mk c2, qr := 0, qc := -(mk c1) }
  | .const c1, .bin .mul (.var v2) (.var v3) =>
    .gate { a := some v2, b := some v3, c := none, qm := 1, qc := -(mk c1) }
  | _, _ => .fatal (.bin .eq lhs rhs)

/-- One iteration of the constraint loop in plonk/synth.rs `gadget`: only
equalities are dispatched; every other expression shape is silently skipped
by the `if let`. -/
def emitOne (p : ℕ) (e : Expr) : EmitResult p :=
  match e with
  | .bin .eq lhs rhs => Plonk.gateFor p lhs rhs
  | _ => .skipped

end Plonk

namespace Halo2

/-- halo2/synth.rs `synthesize`, constraint dispatch: every arm is one
`make_gate` call with all five selectors passed explicitly, arm for arm in
source order.  `.divZero` models the `op.invert().unwrap()` panic in the two
constant-denominator strict-division arms. -/
def gateFor (p : ℕ) (lhs rhs : Expr) : EmitResult p :=
  let mk := Halo2.make_constant p
  match lhs, rhs with
  | .var v1, .var v2 =>
    .gate { a := some v1, b := some v2, c := none, ql := 1, qr := -1, qo := 0, qm := 0, qc := 0 }
  | .var v1, .const c2 =>
    .gate { a := some v1, b := none, c := none, ql := 1, qr := 0, qo := 0, qm := 0, qc := -(mk c2) }
  | .var v1, .neg (.const c2) =>
    .gate { a := some v1, b := none, c := none, ql := 1, qr := 0, qo := 0, qm := 0, qc := mk c2 }
  | .var v1, .neg (.var v2) =>
    .gate { a := some v1, b := some v2, c := none, ql := 1, qr := 1, qo := 0, qm := 0, qc := 0 }
  | .var v1, .bin .add (.const c2) (.const c3) =>
    .gate { a := some v1, b := none, c := none, ql := 1, qr := 1, qo := 0, qm := 0,
            qc := -(mk c2) - mk c3 }
  | .var v1, .bin .add (.var v2) (.const c3) =>
    .gate { a := some v1, b := some v2, c := none, ql := 1, qr := -1, qo := 0, qm := 0,
            qc := -(mk c3) }
  | .var v1, .bin .add (.const c2) (.var v3) =>
    .gate { a := some v1, b := some v3, c := none, ql := 1, qr := -1, qo := 0, qm := 0,
            qc := -(mk c2) }
  | .var v1, .bin .add (.var v2) (.var v3) =>
    .gate { a := some v1, b := some v2, c := some v3, ql := 1, qr := -1, qo := -1, qm := 0,
            qc := 0 }
  | .var v1, .bin .sub (.const c2) (.const c3) =>
    .gate { a := some v1, b := none, c := none, ql := 1, qr := 0, qo := 0, qm := 0,
            qc := mk c3 - mk c2 }
  | .var v1, .bin .sub (.var v2) (.const c3) =>
    .gate { a := some v1, b := some v2, c := none, ql := 1, qr := -1, qo := 0, qm := 0,
            qc := mk c3 }
  | .var v1, .bin .sub (.const c2) (.var v3) =>
    .gate { a := some v1, b := some v3, c := none, ql := 1, qr := 1, qo := 0, qm := 0,
            qc := -(mk c2) }
  | .var v1, .bin .sub (.var v2) (.var v3) =>
    .gate { a := some v1, b := some v2, c := some v3, ql := 1, qr := -1, qo := 1, qm := 0,
            qc := 0 }
  | .var v1, .bin .div (.const c2) (.const c3) =>
    if mk c3 = 0 then .divZero
    else .gate { a := some v1, b := none, c := none, ql := 1, qr := 0, qo := 0, qm := 0,
                 qc := -(mk c2 * (mk c3)⁻¹) }
  | .var v1, .bin .div (.var v2) (.const c3) =>
    if mk c3 = 0 then .divZero
    else .gate { a := some v1, b := some v2, c := none, ql := 1, qr := -((mk c3)⁻¹),
                 qo := 0, qm := 0, qc := 0 }
  | .var v1, .bin .div (.const c2) (.var v3) =>
    .gate { a := some v1, b := some v3, c := none, ql := 0, qr := 0, qo := 0, qm := 1,
            qc := -(mk c2) }
  | .var v1, .bin .div (.var v2) (.var v3) =>
    .gate { a := some v1, b := some v3, c := some v2, ql := 0, qr := 0, qo := -1, qm := 1,
            qc := 0 }
  | .var v1, .bin .mul (.const c2) (.const c3) =>
    .gate { a := some v1, b := none, c := none, ql := 1, qr := 0, qo := 0, qm := 0,
            qc := -(mk c2 * mk c3) }
  | .var v1, .bin .mul (.var v2) (.const c3) =>
    .gate { a := some v1, b := some v2, c := none, ql := 1, qr := -(mk c3), qo := 0, qm := 0,
            qc := 0 }
  | .var v1, .bin .mul (.const c2) (.var v3) =>
    .gate { a := some v1, b := some v3, c := none, ql := 1, qr := -(mk c2), qo := 0, qm := 0,
            qc := 0 }
  | .var v1, .bin .mul (.var v2) (.var v3) =>
    .gate { a := some v2, b := some v3, c := some v1, ql := 0, qr := 0, qo := 1, qm := -1,
            qc := 0 }
  | .const c1, .var v2 =>
    .gate { a := some v2, b := none, c := none, ql := 1, qr := 0, qo := 0, qm := 0,
            qc := -(mk c1) }
  | .const c1, .const c2 =>
    .gate { a := none, b := none, c := none, ql := 0, qr := 0, qo := 0, qm := 0,
            qc := mk c1 - mk c2 }
  | .const c1, .neg (.const c2) =>
    .gate { a := none, b := none, c := none, ql := 0, qr := 0, qo := 0, qm := 0,
            qc := mk c1 + mk c2 }
  | .const c1, .neg (.var v2) =>
    .gate { a := some v2, b := none, c := none, ql := 1, qr := 0, qo := 0, qm := 0,
            qc := mk c1 }
  | .const c1, .bin .add (.const c2) (.const c3) =>
    .gate { a := none, b := none, c := none, ql := 0, qr := 0, qo := 0, qm := 0,
            qc := mk c1 - mk c2 - mk c3 }
  | .const c1, .bin .add (.var v2) (.const c3) =>
    .gate { a := some v2, b := none, c := none, ql := 1, qr := 0, qo := 0, qm := 0,
            qc := mk c3 - mk c1 }
  | .const c1, .bin .add (.const c2) (.var v3) =>
    .gate { a := some v3, b := none, c := none, ql := 1, qr := 0, qo := 0, qm := 0,
            qc := mk c2 - mk c1 }
  | .const c1, .bin .add (.var v2) (.var v3) =>
    .gate { a := some v2, b := some v3, c := none, ql := 1, qr := 1, qo := 0, qm := 0,
            qc := -(mk c1) }
  | .const c1, .bin .sub (.const c2) (.const c3) =>
    .gate { a := none, b := none, c := none, ql := 0, qr := 0, qo := 0, qm := 0,
            qc := mk c1 - mk c2 + mk c3 }
  | .const c1, .bin .sub (.var v2) (.const c3) =>
    .gate { a := some v2, b := none, c := none, ql := 1, qr := 0, qo := 0, qm := 0,
            qc := -(mk c1) - mk c3 }
  | .const c1, .bin .sub (.const c2) (.var v3) =>
    .gate { a := some v3, b := none, c := none, ql := 1, qr := 0, qo := 0, qm := 0,
            qc := mk c1 - mk c2 }
  | .const c1, .bin .sub (.var v2) (.var v3) =>
    .gate { a := some v2, b := some v3, c := none, ql := 1, qr := -1, qo := 0, qm := 0,
            qc := -(mk c1) }
  | .const c1, .bin .div (.const c2) (.const c3) =>
    .gate { a := none, b := none, c := none, ql := 0, qr := 0, qo := 0, qm := 0,
            qc := mk c1 * mk c3 - mk c2 }
  | .const c1, .bin .div (.var v2) (.const c3) =>
    .gate { a := some v2, b := none, c := none, ql := 1, qr := 0, qo := 0, qm := 0,
            qc := -(mk c1) * mk c3 }
  | .const c1, .bin .div (.const c2) (.var v3) =>
    .gate { a := some v3, b := none, c := none, ql := mk c1, qr := 0, qo := 0, qm := 0,
            qc := -(mk c2) }
  | .const c1, .bin .div (.var v2) (.var v3) =>
    .gate { a := some v2, b := some v3, c := none, ql := 1, qr := -(mk c1), qo := 0, qm := 0,
            qc := 0 }
  | .const c1, .bin .mul (.const c2) (.const c3) =>
    .gate { a := none, b := none, c := none, ql := 0, qr := 0, qo := 0, qm := 0,
            qc := mk c1 - mk c2 * mk c3 }
  | .const c1, .bin .mul (.var v2) (.const c3) =>
    .gate { a := some v2, b := none, c := none, ql := mk c3, qr := 0, qo := 0, qm := 0,
            qc := -(mk c1) }
  | .const c1, .bin .mul (.const c2) (.var v3) =>
    .gate { a := some v3, b := none, c := none, ql := mk c2, qr := 0, qo := 0, qm := 0,
            qc := -(mk c1) }
  | .const c1, .bin .mul (.var v2) (.var v3) =>
    .gate { a := some v2, b := some v3, c := none, ql := 0, qr := 0, qo := 0, qm := 1,
            qc := -(mk c1) }
  | _, _ => .fatal (.bin .eq lhs rhs)

/-- One iteration of the constraint loop in halo2/synth.rs `synthesize`: only
equalities are dispatched; every other expression shape is silently skipped
by the `if let`. -/
def emitOne (p : ℕ) (e : Expr) : EmitResult p :=
  match e with
  | .bin .eq lhs rhs => Halo2.gateFor p lhs rhs
  | _ => .skipped

end Halo2

/-- halo2/synth.rs `Halo2Module`: the module, the witness map whose values
are `Value<F>` (`none` is `Value::unknown()`), and the parameter k. -/
structure Halo2Module (p : ℕ) : Type where
  module : Module
  variable_map : List (ℕ × Option (ZMod p))
  k : ℕ
deriving DecidableEq

namespace Halo2

/-- halo2/synth.rs `PrimeFieldBincode` encode: a known value encodes as
`Some` of its canonical representation (`to_repr`, modelled by `ZMod.val`),
an unknown value as an absent optional. -/
def encodeValue (p : ℕ) : Option (ZMod p) → Option ℕ
  | some x => some x.val
  | none => none

/-- `Halo2Module` encode: the encoded witness map followed by the module and
k (bincode framing itself is backend-defined and out of scope, so the blob is
kept structured). -/
def encodeModule (p : ℕ) (m : Halo2Module p) : List (ℕ × Option ℕ) × Module × ℕ :=
  (m.variable_map.map (fun kv => (kv.1, encodeValue p kv.2)), m.module, m.k)

/-- `PrimeField::from_repr`: succeeds exactly on canonical representations,
i.e. values below p. -/
def from_repr (p : ℕ) (r : ℕ) : Option (ZMod p) :=
  if r < p then some ((r : ZMod p)) else none

/-- Outcome of decoding one optional field value: either a witness-map value,
or the abort caused by `T::from_repr(t).unwrap()` on an invalid
representation. -/
inductive DecodeOutcome (p : ℕ) : Type
  | ok (v : Option (ZMod p))
  | panicked
deriving DecidableEq

/-- halo2/synth.rs `PrimeFieldBincode` decode: an absent optional decodes to
`Value::unknown()`; a present representation is fed to
`from_repr(..).unwrap()`, which panics on an invalid representation instead
of returning a decode error. -/
def decodeValue (p : ℕ) : Option ℕ → DecodeOutcome p
  | some r =>
    match from_repr p r with
    | some x => .ok (some x)
    | none => .panicked
  | none => .ok none

/-- Decode an encoded witness map entry by entry; any panic aborts. -/
def decodeVarMap (p : ℕ) : List (ℕ × Option ℕ) → Option (List (ℕ × Option (ZMod p)))
  | [] => some []
  | (k, ev) :: rest =>
    match decodeValue p ev, decodeVarMap p rest with
    | .ok v, some r => some ((k, v) :: r)
    | _, _ => none

/-- `Halo2Module` decode: witness map, then module, then k. -/
def decodeModule (p : ℕ) (blob : List (ℕ × Option ℕ) × Module × ℕ) :
    Option (Halo2Module p) :=
  (decodeVarMap p blob.1).map (fun vm => ⟨blob.2.1, vm, blob.2.2⟩)

end Halo2

/-- Outcome of decoding one prime-field element in the plonk backend. -/
inductive FieldDecodeResult (p : ℕ) : Type
  | ok (x : ZMod p)
  | decodeError
  | panicked
deriving DecidableEq

namespace Plonk

/-- `BigUint::new(digits)`: value of a little-endian vector of 32-bit
limbs. -/
def digitsValue : List ℕ → ℕ
  | [] => 0
  | d :: rest => d + 2 ^ 32 * digitsValue rest

/-- plonk/synth.rs `PrimeFieldBincode` decode: `T::try_from(BigUint)`
succeeds exactly on values below p; a failure is mapped to
`DecodeError::OtherString("cannot convert from BigUint to PrimeField type")`
and returned, never panicked. -/
def fieldDecode (p : ℕ) (digits : List ℕ) : FieldDecodeResult p :=
  if digitsValue digits < p then .ok ((digitsValue digits : ZMod p))
  else .decodeError

/-- plonk/synth.rs `PrimeFieldOps::infix`, `DivideZ` arm: make both operands
into field constants; if the denominator is the zero element return the zero
big integer, otherwise the canonical representative of `c / d`. -/
def fieldOpsDivz (p : ℕ) (a b : ℤ) : ℤ :=
  (((if Plonk.make_constant p b = 0 then (0 : ZMod p)
     else Plonk.make_constant p a * (Plonk.make_constant p b)⁻¹)).val : ℤ)

end Plonk

/-- halo2/synth.rs `PrimeFieldOps::infix`, `DivideZ` arm: if the denominator
constant is the zero element the result is `BigInt::from(0)`, otherwise the
canonical representative of `c * d.invert().unwrap()`. -/
def Halo2.fieldOpsDivz (p : ℕ) (a b : ℤ) : ℤ :=
  if Halo2.make_constant p b = 0 then 0
  else (((Halo2.make_constant p a * (Halo2.make_constant p b)⁻¹)).val : ℤ)

/-- Every value cached in the evaluator's `assigns` map is the cache-free
evaluation of its variable. -/
def Consistent (p : ℕ) (mk : ℤ → ZMod p) (dz : Bool) (defs : List (ℕ × Expr))
    (inputs σ : List (ℕ × ZMod p)) : Prop :=
  ∀ v x, lookupA σ v = some x → EvalR p mk dz defs inputs (.var v) x

/-- The `assigns` map only ever grows, so it keeps every seed input. -/
def ExtendsInputs (p : ℕ) (inputs σ : List (ℕ × ZMod p)) : Prop :=
  ∀ v x, lookupA inputs v = some x → lookupA σ v = some x

theorem Plonk.make_constant_eq_specMakeConstant (p : ℕ) (c : ℤ) :
    Plonk.make_constant p c = specMakeConstant p c := by
  unfold Plonk.make_constant specMakeConstant
  rcases lt_trichotomy c 0 with h | h | h
  · rw [if_neg (by omega), if_pos h]
  · subst h; simp
  · rw [if_pos h, if_neg (by omega)]

theorem Plonk.make_constant_eq_intCast (p : ℕ) (c : ℤ) :
    Plonk.make_constant p c = (c : ZMod p) := by
  rw [Plonk.make_constant_eq_specMakeConstant]
  unfold specMakeConstant
  have h2 : ((c.natAbs : ℕ) : ZMod p) = (((c.natAbs : ℤ)) : ZMod p) :=
    (Int.cast_natCast _).symm
  rcases lt_trichotomy c 0 with h | h | h
  · rw [if_pos h]
    have h1 : ((c.natAbs : ℤ)) = -c := by omega
    rw [h2, h1, Int.cast_neg, neg_neg]
  · subst h; simp
  · rw [if_neg (by omega)]
    have h1 : ((c.natAbs : ℤ)) = c := by omega
    rw [h2, h1]

instance : NeZero (19 : ℕ) := ⟨by norm_num⟩

instance : Fact (Nat.Prime 19) := ⟨by norm_num⟩

theorem Halo2.decodeVarMap_encode (p : ℕ) [NeZero p] (l : List (ℕ × Option (ZMod p))) :
    Halo2.decodeVarMap p (l.map (fun kv => (kv.1, Halo2.encodeValue p kv.2))) = some l := by
  induction l with
  | nil => rfl
  | cons hd tl ih =>
    obtain ⟨k, v⟩ := hd
    have hv : Halo2.decodeValue p (Halo2.encodeValue p v) = Halo2.DecodeOutcome.ok v := by
      cases v with
      | none => rfl
      | some x =>
        have hx : Halo2.from_repr p x.val = some x := by
          unfold Halo2.from_repr
          rw [if_pos (ZMod.val_lt x)]
          exact congrArg some (ZMod.natCast_rightInverse x)
        simp [Halo2.encodeValue, Halo2.decodeValue, hx]
    rw [List.map_cons, Halo2.decodeVarMap, hv, ih]

/-- C3 counterexample: the claim makes `k` the least non-negative integer
with `2^k ≥ |constraints| + 8`.  For a module with 0 constraints that least
integer is 3 (since `2^3 ≥ 8`), but the shift loop of `Halo2Module::new`
computes 4. -/
theorem C3_counterexample :
    Halo2.computeK 0 = 4 ∧ 0 + 8 ≤ 2 ^ 3 ∧ ¬Halo2.computeK 0 ≤ 3 := by
  have hE : Halo2.computeK 0 = Halo2.kLoop 8 0 := rfl
  have h1 := Halo2.lt_two_pow_kLoop 8
  have h2 := Halo2.kLoop_le_of_lt_two_pow 8 4 (by norm_num)
  have h3 : ¬Halo2.kLoop 8 0 ≤ 3 := by
    intro h
    have h4 : (2 : ℕ) ^ Halo2.kLoop 8 0 ≤ 2 ^ 3 :=
      Nat.pow_le_pow_right (by norm_num) h
    norm_num at h4
    omega
  rw [hE]
  exact ⟨by omega, by norm_num, h3⟩

/-- C3 amended: `Halo2Module::new` computes the smallest non-negative integer
k with `2^k > |constraints| + 8` (strictly greater, i.e. the bit length of
`|constraints| + 8`); a module with 257 constraints still yields `k = 9`. -/
theorem C3_k_strict_bit_length :
    (∀ n : ℕ, n + 8 < 2 ^ Halo2.computeK n ∧
        ∀ j : ℕ, n + 8 < 2 ^ j → Halo2.computeK n ≤ j) ∧
      Halo2.computeK 257 = 9 := by
  constructor
  · intro n
    exact ⟨Halo2.lt_two_pow_kLoop (n + 8),
      fun j hj => Halo2.kLoop_le_of_lt_two_pow (n + 8) j hj⟩
  · have hE : Halo2.computeK 257 = Halo2.kLoop 265 0 := rfl
    have h1 := Halo2.lt_two_pow_kLoop 265
    have h2 := Halo2.kLoop_le_of_lt_two_pow 265 9 (by norm_num)
    have h3 : ¬Halo2.kLoop 265 0 ≤ 8 := by
      intro h
      have h4 : (2 : ℕ) ^ Halo2.kLoop 265 0 ≤ 2 ^ 8 :=
        Nat.pow_le_pow_right (by norm_num) h
      norm_num at h4
      omega
    rw [hE]
    omega

/-- C3 witness: the minimality clause applied at 257 constraints and bound
9. -/
theorem C3_witness : Halo2.computeK 257 ≤ 9 :=
  (C3_k_strict_bit_length.1 257).2 9 (by norm_num)

/-- C4: the padded circuit size of the plonk backend is
`|constraints| + |pubs| + 4` rounded up to the next power of two: it is a
power of two, at least that count, and no larger than any power of two that
is at least that count. -/
theorem C4_padded_circuit_size (m : Module) :
    ∃ t : ℕ, Plonk.padded_circuit_size m = 2 ^ t ∧
      m.exprs.length + m.pubs.length + 4 ≤ 2 ^ t ∧
      ∀ j : ℕ, m.exprs.length + m.pubs.length + 4 ≤ 2 ^ j → 2 ^ t ≤ 2 ^ j := by
  set n := m.exprs.length + m.pubs.length + 4 with hn
  refine ⟨Halo2.kLoop (n - 1) 0, ?_, ?_, ?_⟩
  · unfold Plonk.padded_circuit_size nextPowerOfTwo
    rw [← hn, if_neg (by omega)]
  · have h := Halo2.lt_two_pow_kLoop (n - 1)
    omega
  · intro j hj
    have h1 : n - 1 < 2 ^ j := by omega
    exact Nat.pow_le_pow_right (by norm_num) (Halo2.kLoop_le_of_lt_two_pow (n - 1) j h1)

/-- C4 witness: a module with one constraint and no public inputs pads to at
most 8 rows. -/
theorem C4_witness : Plonk.padded_circuit_size ⟨[], [Expr.const 0], []⟩ ≤ 2 ^ 3 := by
  obtain ⟨t, h1, h2, h3⟩ := C4_padded_circuit_size ⟨[], [Expr.const 0], []⟩
  have h4 := h3 3 (by simp)
  omega

/-- C6 counterexample: halo2 `make_constant` truncates the magnitude to its
low 512 bits before reduction, so at `c = 2^512` it returns 0 while `|c| mod
19 = 9`; the claim asserts equality with no bound on the magnitude. -/
theorem C6_counterexample :
    Halo2.make_constant 19 (2 ^ 512) ≠ specMakeConstant 19 (2 ^ 512) := by decide

/-- C6 amended: the plonk `make_constant` agrees with the spec description
for every signed big integer; the halo2 `make_constant` agrees whenever the
magnitude is below `2^512` (its byte buffer is resized to 64 bytes, which
truncates anything larger). -/
theorem C6_make_constant :
    ∀ p : ℕ, (∀ c : ℤ, Plonk.make_constant p c = specMakeConstant p c) ∧
      ∀ c : ℤ, c.natAbs < 2 ^ 512 → Halo2.make_constant p c = specMakeConstant p c := by
  intro p
  refine ⟨Plonk.make_constant_eq_specMakeConstant p, ?_⟩
  intro c hc
  unfold Halo2.make_constant specMakeConstant
  rw [Nat.mod_eq_of_lt hc]
  rcases lt_trichotomy c 0 with h | h | h
  · rw [if_neg (by omega), if_pos h]
  · subst h; simp
  · rw [if_pos h, if_neg (by omega)]

/-- C6 witness: the halo2 clause applied at `c = -5` in the field of 19
elements. -/
theorem C6_witness : Halo2.make_constant 19 (-5) = specMakeConstant 19 (-5) :=
  (C6_make_constant 19).2 (-5) (by decide)

/-- C7: decoding the encoding of a `Halo2Module` restores the module lists,
the witness map (known values exactly, unknown values via the absent
optional) and `k`. -/
theorem C7_roundtrip (p : ℕ) [NeZero p] (m : Halo2Module p) :
    Halo2.decodeModule p (Halo2.encodeModule p m) = some m := by
  unfold Halo2.decodeModule Halo2.encodeModule
  rw [Halo2.decodeVarMap_encode]
  rfl

/-- C7 witness: round trip of a concrete module with one known and one
unknown witness entry. -/
theorem C7_witness :
    Halo2.decodeModule 19
        (Halo2.encodeModule 19 ⟨⟨[], [], []⟩, [(1, some 5), (2, none)], 9⟩) =
      some ⟨⟨[], [], []⟩, [(1, some 5), (2, none)], 9⟩ :=
  C7_roundtrip 19 ⟨⟨[], [], []⟩, [(1, some 5), (2, none)], 9⟩

/-- C8 counterexample: the halo2 field decoder meets the invalid
representation 19 (not below p = 19) and panics via
`from_repr(..).unwrap()` instead of returning a decode error, contradicting
the claim that both backends fail with a returned `DecodeError`. -/
theorem C8_counterexample :
    Halo2.decodeValue 19 (some 19) = Halo2.DecodeOutcome.panicked := by decide

/-- C8 amended: on an invalid prime-field representation the plonk decoder
returns the descriptive `DecodeError`, while the halo2 decoder panics. -/
theorem C8_decode_failure_modes (p : ℕ) :
    (∀ digits : List ℕ, p ≤ Plonk.digitsValue digits →
      Plonk.fieldDecode p digits = FieldDecodeResult.decodeError) ∧
    ∀ r : ℕ, p ≤ r → Halo2.decodeValue p (some r) = Halo2.DecodeOutcome.panicked := by
  constructor
  · intro digits h
    unfold Plonk.fieldDecode
    rw [if_neg (by omega)]
  · intro r h
    have hr : Halo2.from_repr p r = none := by
      unfold Halo2.from_repr
      rw [if_neg (by omega)]
    simp [Halo2.decodeValue, hr]

/-- C8 witness: both clauses applied at p = 19 with the invalid
representation 19. -/
theorem C8_witness :
    Plonk.fieldDecode 19 [19] = FieldDecodeResult.decodeError ∧
      Halo2.decodeValue 19 (some 19) = Halo2.DecodeOutcome.panicked :=
  ⟨(C8_decode_failure_modes 19).1 [19] (by norm_num [Plonk.digitsValue]),
    (C8_decode_failure_modes 19).2 19 (by norm_num)⟩

theorem Halo2.make_constant_intCast_of_lt (p : ℕ) (c : ℤ) (hc : c.natAbs < 2 ^ 512) :
    Halo2.make_constant p c = (c : ZMod p) := by
  unfold Halo2.make_constant
  rw [Nat.mod_eq_of_lt hc]
  exact Plonk.make_constant_eq_intCast p c

theorem val_intCast_roundtrip (p : ℕ) [NeZero p] (x : ZMod p) :
    (((x.val : ℤ)) : ZMod p) = x := by
  rw [Int.cast_natCast]
  exact ZMod.natCast_rightInverse x

/-- C5 counterexample: the claim quantifies over all signed big integers, but
halo2 `make_constant` truncates magnitudes to 512 bits, so the halo2 adapter
returns 0 for `1 | 2^512` in the field of 19 elements even though
`2^512 ≢ 0 (mod 19)` and `1 · (2^512)⁻¹ ≠ 0` there. -/
theorem C5_counterexample :
    Halo2.fieldOpsDivz 19 1 (2 ^ 512) = 0 ∧
      (((2 : ℤ) ^ 512 : ℤ) : ZMod 19) ≠ 0 ∧
      ((1 : ZMod 19) * ((((2 : ℤ) ^ 512 : ℤ) : ZMod 19))⁻¹ ≠ 0) := by
  refine ⟨by decide, by decide, ?_⟩
  have h : (((2 : ℤ) ^ 512 : ℤ) : ZMod 19) ≠ 0 := by decide
  simpa using inv_ne_zero h

/-- C5 amended: the safe-divide of the plonk adapter and of the plonk
evaluator returns 0 when `b ≡ 0 (mod p)` and the representative of `a·b⁻¹`
otherwise, for all signed big integers; the halo2 adapter does the same
provided both magnitudes are below `2^512` (its `make_constant` truncates
larger ones). -/
theorem C5_safe_divide (p : ℕ) [Fact p.Prime] :
    (∀ a b : ℤ,
        ((b : ZMod p) = 0 → Plonk.fieldOpsDivz p a b = 0) ∧
        ((b : ZMod p) ≠ 0 →
          ((Plonk.fieldOpsDivz p a b : ℤ) : ZMod p) = (a : ZMod p) * (b : ZMod p)⁻¹)) ∧
    (∀ a b : ℤ, ∀ fuel : ℕ, ∀ defs : List (ℕ × Expr), ∀ σ : List (ℕ × ZMod p),
        Plonk.evaluate_expr p (fuel + 2) (.bin .divz (.const a) (.const b)) defs σ =
          some (if (b : ZMod p) = 0 then 0 else (a : ZMod p) * (b : ZMod p)⁻¹, σ)) ∧
    (∀ a b : ℤ, a.natAbs < 2 ^ 512 → b.natAbs < 2 ^ 512 →
        ((b : ZMod p) = 0 → Halo2.fieldOpsDivz p a b = 0) ∧
        ((b : ZMod p) ≠ 0 →
          ((Halo2.fieldOpsDivz p a b : ℤ) : ZMod p) = (a : ZMod p) * (b : ZMod p)⁻¹)) := by
  haveI : NeZero p := ⟨(Fact.out (p := p.Prime)).ne_zero⟩
  refine ⟨?_, ?_, ?_⟩
  · intro a b
    constructor
    · intro hb
      unfold Plonk.fieldOpsDivz
      rw [Plonk.make_constant_eq_intCast p b, if_pos hb, ZMod.val_zero]
      rfl
    · intro hb
      unfold Plonk.fieldOpsDivz
      rw [Plonk.make_constant_eq_intCast p b, Plonk.make_constant_eq_intCast p a,
        if_neg hb, val_intCast_roundtrip]
  · intro a b fuel defs σ
    have hstep : Plonk.evaluate_expr p (fuel + 2) (.bin .divz (.const a) (.const b)) defs σ =
        evalExpr p (Plonk.make_constant p) true (fuel + 1 + 1)
          (.bin .divz (.const a) (.const b)) defs σ := rfl
    rw [hstep]
    by_cases hb : (b : ZMod p) = 0
    · simp [evalExpr, Plonk.make_constant_eq_intCast, hb]
    · simp [evalExpr, Plonk.make_constant_eq_intCast, hb]
  · intro a b ha hb
    constructor
    · intro h0
      unfold Halo2.fieldOpsDivz
      rw [Halo2.make_constant_intCast_of_lt p b hb, if_pos h0]
    · intro h0
      unfold Halo2.fieldOpsDivz
      rw [Halo2.make_constant_intCast_of_lt p b hb, Halo2.make_constant_intCast_of_lt p a ha,
        if_neg h0, val_intCast_roundtrip]

/-- C5 witness: the plonk adapter clause at `3 | 19` (denominator ≡ 0) and
the halo2 adapter clause at `6 | 3`, both in the field of 19 elements. -/
theorem C5_witness :
    Plonk.fieldOpsDivz 19 3 19 = 0 ∧
      ((Halo2.fieldOpsDivz 19 6 3 : ℤ) : ZMod 19) =
        ((6 : ℤ) : ZMod 19) * ((((3 : ℤ)) : ZMod 19))⁻¹ :=
  ⟨((C5_safe_divide 19).1 3 19).1 (by decide),
    (((C5_safe_divide 19).2.2 6 3 (by decide) (by decide))).2 (by decide)⟩

theorem evalExpr_sound (p : ℕ) (mk : ℤ → ZMod p) (dz : Bool)
    (defs : List (ℕ × Expr)) (inputs : List (ℕ × ZMod p)) :
    ∀ fuel : ℕ, ∀ e : Expr, ∀ σ val σ2,
      Consistent p mk dz defs inputs σ → ExtendsInputs p inputs σ →
      evalExpr p mk dz fuel e defs σ = some (val, σ2) →
      EvalR p mk dz defs inputs e val ∧ Consistent p mk dz defs inputs σ2 ∧
        ExtendsInputs p inputs σ2 := by
  intro fuel
  induction fuel with
  | zero =>
    intro e σ val σ2 _ _ h
    rw [evalExpr] at h
    cases h
  | succ n ih =>
    intro e σ val σ2 hC hE h
    cases e with
    | const c =>
      rw [evalExpr] at h
      injection h with h
      injection h with h1 h2
      subst h1; subst h2
      exact ⟨EvalR.const c, hC, hE⟩
    | var v =>
      rw [evalExpr] at h
      split at h
      · rename_i x h1
        injection h with h
        injection h with h4 h5
        subst h4; subst h5
        exact ⟨hC v x h1, hC, hE⟩
      · rename_i h1
        split at h
        · rename_i de h2
          split at h
          · rename_i val0 σ3 h3
            injection h with h
            injection h with h4 h5
            obtain ⟨hEval, hC3, hE3⟩ := ih de σ val0 σ3 hC hE h3
            have hinputs : lookupA inputs v = none := by
              cases h6 : lookupA inputs v with
              | none => rfl
              | some y =>
                have h7 := hE v y h6
                rw [h1] at h7
                cases h7
            have hEvalVar : EvalR p mk dz defs inputs (.var v) val0 :=
              EvalR.varDef v de val0 hinputs h2 hEval
            subst h4; subst h5
            refine ⟨hEvalVar, ?_, ?_⟩
            · intro w x hw
              rw [lookupA] at hw
              by_cases hvw : v = w
              · rw [if_pos hvw] at hw
                injection hw with hw
                subst hw
                exact hvw ▸ hEvalVar
              · rw [if_neg hvw] at hw
                exact hC3 w x hw
            · intro w x hw
              rw [lookupA]
              by_cases hvw : v = w
              · subst hvw
                rw [hinputs] at hw
                cases hw
              · rw [if_neg hvw]
                exact hE3 w x hw
          · cases h
        · cases h
    | neg e1 =>
      rw [evalExpr] at h
      split at h
      · rename_i x σ3 h3
        injection h with h
        injection h with h4 h5
        obtain ⟨hEval, hC3, hE3⟩ := ih e1 σ x σ3 hC hE h3
        subst h4; subst h5
        exact ⟨EvalR.neg e1 x hEval, hC3, hE3⟩
      · cases h
    | bin op a b =>
      cases op with
      | add =>
        rw [evalExpr] at h
        split at h
        · rename_i x σa h3
          split at h
          · rename_i y σb h4
            injection h with h
            injection h with h5 h6
            obtain ⟨ea, hCa, hEa⟩ := ih a σ x σa hC hE h3
            obtain ⟨eb, hCb, hEb⟩ := ih b σa y σb hCa hEa h4
            subst h5; subst h6
            exact ⟨EvalR.add a b x y ea eb, hCb, hEb⟩
          · cases h
        · cases h
      | sub =>
        rw [evalExpr] at h
        split at h
        · rename_i x σa h3
          split at h
          · rename_i y σb h4
            injection h with h
            injection h with h5 h6
            obtain ⟨ea, hCa, hEa⟩ := ih a σ x σa hC hE h3
            obtain ⟨eb, hCb, hEb⟩ := ih b σa y σb hCa hEa h4
            subst h5; subst h6
            exact ⟨EvalR.sub a b x y ea eb, hCb, hEb⟩
          · cases h
        · cases h
      | mul =>
        rw [evalExpr] at h
        split at h
        · rename_i x σa h3
          split at h
          · rename_i y σb h4
            injection h with h
            injection h with h5 h6
            obtain ⟨ea, hCa, hEa⟩ := ih a σ x σa hC hE h3
            obtain ⟨eb, hCb, hEb⟩ := ih b σa y σb hCa hEa h4
            subst h5; subst h6
            exact ⟨EvalR.mul a b x y ea eb, hCb, hEb⟩
          · cases h
        · cases h
      | div =>
        rw [evalExpr] at h
        split at h
        · rename_i x σa h3
          split at h
          · rename_i y σb h4
            split at h
            · cases h
            · rename_i hy
              injection h with h
              injection h with h5 h6
              obtain ⟨ea, hCa, hEa⟩ := ih a σ x σa hC hE h3
              obtain ⟨eb, hCb, hEb⟩ := ih b σa y σb hCa hEa h4
              subst h5; subst h6
              exact ⟨EvalR.div a b x y ea eb hy, hCb, hEb⟩
          · cases h
        · cases h
      | divz =>
        rw [evalExpr] at h
        by_cases hdz : dz = true
        case neg => rw [if_neg hdz] at h; cases h
        case pos =>
          rw [if_pos hdz] at h
          split at h
          · rename_i y σb h3
            obtain ⟨eb, hCb, hEb⟩ := ih b σ y σb hC hE h3
            split at h
            · rename_i hy
              injection h with h
              injection h with h5 h6
              subst h5; subst h6
              exact ⟨EvalR.divzZero a b hdz (hy ▸ eb), hCb, hEb⟩
            · rename_i hy
              split at h
              · rename_i x σa h4
                injection h with h
                injection h with h5 h6
                obtain ⟨ea, hCa, hEa⟩ := ih a σb x σa hCb hEb h4
                subst h5; subst h6
                exact ⟨EvalR.divz a b x y hdz eb hy ea, hCa, hEa⟩
              · cases h
          · cases h
      | intdiv =>
        rw [evalExpr] at h
        split at h
        · rename_i x σa h3
          split at h
          · rename_i y σb h4
            split at h
            · cases h
            · rename_i hy
              injection h with h
              injection h with h5 h6
              obtain ⟨ea, hCa, hEa⟩ := ih a σ x σa hC hE h3
              obtain ⟨eb, hCb, hEb⟩ := ih b σa y σb hCa hEa h4
              subst h5; subst h6
              exact ⟨EvalR.intdiv a b x y ea eb hy, hCb, hEb⟩
          · cases h
        · cases h
      | mod =>
        rw [evalExpr] at h
        split at h
        · rename_i x σa h3
          split at h
          · rename_i y σb h4
            split at h
            · cases h
            · rename_i hy
              injection h with h
              injection h with h5 h6
              obtain ⟨ea, hCa, hEa⟩ := ih a σ x σa hC hE h3
              obtain ⟨eb, hCb, hEb⟩ := ih b σa y σb hCa hEa h4
              subst h5; subst h6
              exact ⟨EvalR.mod a b x y ea eb hy, hCb, hEb⟩
          · cases h
        · cases h
      | pow => rw [evalExpr] at h; cases h
      | eq => rw [evalExpr] at h; cases h

theorem populateAux_preserves (p : ℕ) (mk : ℤ → ZMod p) (dz : Bool) (fuel : ℕ)
    (defs : List (ℕ × Expr)) :
    ∀ vars : List ℕ, ∀ σ acc w, populateAux p mk dz fuel defs vars σ acc = some w →
      ∀ u : ℕ, (lookupA acc u).isSome → (lookupA w u).isSome := by
  intro vars
  induction vars with
  | nil =>
    intro σ acc w h u hu
    rw [populateAux] at h
    injection h with h
    subst h
    exact hu
  | cons v rest ih =>
    intro σ acc w h u hu
    rw [populateAux] at h
    split at h
    · rename_i val σ2 h3
      apply ih σ2 ((v, val) :: acc) w h u
      rw [lookupA]
      by_cases hvu : v = u
      · rw [if_pos hvu]; rfl
      · rw [if_neg hvu]; exact hu
    · cases h

theorem populateAux_sound (p : ℕ) (mk : ℤ → ZMod p) (dz : Bool) (fuel : ℕ)
    (defs : List (ℕ × Expr)) (inputs : List (ℕ × ZMod p)) :
    ∀ vars : List ℕ, ∀ σ acc w,
      Consistent p mk dz defs inputs σ → ExtendsInputs p inputs σ →
      (∀ v x, lookupA acc v = some x → EvalR p mk dz defs inputs (.var v) x) →
      populateAux p mk dz fuel defs vars σ acc = some w →
      (∀ v x, lookupA w v = some x → EvalR p mk dz defs inputs (.var v) x) ∧
        (∀ v, v ∈ vars → (lookupA w v).isSome) := by
  intro vars
  induction vars with
  | nil =>
    intro σ acc w _ _ hacc h
    rw [populateAux] at h
    injection h with h
    subst h
    exact ⟨hacc, by intro v hv; cases hv⟩
  | cons v rest ih =>
    intro σ acc w hC hE hacc h
    rw [populateAux] at h
    split at h
    · rename_i val σ2 h3
      obtain ⟨hEval, hC2, hE2⟩ :=
        evalExpr_sound p mk dz defs inputs fuel (.var v) σ val σ2 hC hE h3
      have hacc2 : ∀ u x, lookupA ((v, val) :: acc) u = some x →
          EvalR p mk dz defs inputs (.var u) x := by
        intro u x hu
        rw [lookupA] at hu
        by_cases hvu : v = u
        · rw [if_pos hvu] at hu
          injection hu with hu
          subst hu
          exact hvu ▸ hEval
        · rw [if_neg hvu] at hu
          exact hacc u x hu
      obtain ⟨h1, h2⟩ := ih σ2 ((v, val) :: acc) w hC2 hE2 hacc2 h
      refine ⟨h1, ?_⟩
      intro u hu
      rcases List.mem_cons.mp hu with rfl | hu2
      · apply populateAux_preserves p mk dz fuel defs rest σ2 ((u, val) :: acc) w h u
        rw [lookupA, if_pos rfl]
        rfl
      · exact h2 u hu2
    · cases h

theorem populateVariables_sound (p : ℕ) (mk : ℤ → ZMod p) (dz : Bool) (fuel : ℕ)
    (m : Module) (vars : List ℕ) (inputs w : List (ℕ × ZMod p))
    (h : populateVariables p mk dz fuel m vars inputs = some w) :
    (∀ v, v ∈ vars → (lookupA w v).isSome) ∧
      ∀ v x, lookupA w v = some x →
        EvalR p mk dz (buildDefs m.defs) inputs (.var v) x := by
  unfold populateVariables at h
  have hC : Consistent p mk dz (buildDefs m.defs) inputs inputs :=
    fun v x hv => EvalR.varInput v x hv
  have hE : ExtendsInputs p inputs inputs := fun v x hv => hv
  have hacc : ∀ v x, lookupA ([] : List (ℕ × ZMod p)) v = some x →
      EvalR p mk dz (buildDefs m.defs) inputs (.var v) x := by
    intro v x hv
    cases hv
  obtain ⟨h1, h2⟩ :=
    populateAux_sound p mk dz fuel (buildDefs m.defs) inputs vars inputs [] w hC hE hacc h
  exact ⟨h2, h1⟩

/-- C9: when `populate_variables` returns (in either backend), every variable
of the witness map holds a known field value, and each stored value is the
evaluation of `Variable(v)` against the definition map seeded with the
user-supplied inputs (the cache-free evaluation relation `EvalR`). -/
theorem C9_populate_variables (p : ℕ) (fuel : ℕ) (m : Module) (vars : List ℕ)
    (inputs w : List (ℕ × ZMod p)) :
    (Plonk.populate_variables p fuel m vars inputs = some w →
      (∀ v, v ∈ vars → (lookupA w v).isSome) ∧
        ∀ v x, lookupA w v = some x →
          EvalR p (Plonk.make_constant p) true (buildDefs m.defs) inputs (.var v) x) ∧
    (Halo2.populate_variables p fuel m vars inputs = some w →
      (∀ v, v ∈ vars → (lookupA w v).isSome) ∧
        ∀ v x, lookupA w v = some x →
          EvalR p (Halo2.make_constant p) false (buildDefs m.defs) inputs (.var v) x) :=
  ⟨fun h => populateVariables_sound p (Plonk.make_constant p) true fuel m vars inputs w h,
    fun h => populateVariables_sound p (Halo2.make_constant p) false fuel m vars inputs w h⟩

/-- C9 witness: the module `{y := x + 4}` with input `x = 3` populates to
`{x ↦ 3, y ↦ 7}` over the field of 19 elements; the theorem then yields that
`y` is known and equal to the cache-free evaluation of `Variable(y)`. -/
theorem C9_witness :
    (lookupA ([(2, 7), (1, 3)] : List (ℕ × ZMod 19)) 2).isSome ∧
      EvalR 19 (Plonk.make_constant 19) true
        (buildDefs [(Pat.var 2, Expr.bin Op.add (Expr.var 1) (Expr.const 4))])
        [(1, 3)] (Expr.var 2) 7 :=
  ⟨((C9_populate_variables 19 5
        ⟨[(Pat.var 2, Expr.bin Op.add (Expr.var 1) (Expr.const 4))], [], []⟩
        [1, 2] [(1, 3)] [(2, 7), (1, 3)]).1 (by decide)).1 2 (by decide),
    ((C9_populate_variables 19 5
        ⟨[(Pat.var 2, Expr.bin Op.add (Expr.var 1) (Expr.const 4))], [], []⟩
        [1, 2] [(1, 3)] [(2, 7), (1, 3)]).1 (by decide)).2 2 7 (by decide)⟩

theorem evalExpr_no_insert (p : ℕ) (mk : ℤ → ZMod p) (dz : Bool)
    (defs : List (ℕ × Expr)) (v : ℕ) (hdefs : lookupA defs v = none) :
    ∀ fuel : ℕ, ∀ e : Expr, ∀ σ val σ2, lookupA σ v = none →
      evalExpr p mk dz fuel e defs σ = some (val, σ2) → lookupA σ2 v = none := by
  intro fuel
  induction fuel with
  | zero =>
    intro e σ val σ2 _ h
    rw [evalExpr] at h
    cases h
  | succ n ih =>
    intro e σ val σ2 hσ h
    cases e with
    | const c =>
      rw [evalExpr] at h
      injection h with h
      injection h with _ h2
      subst h2
      exact hσ
    | var w =>
      rw [evalExpr] at h
      split at h
      · injection h with h
        injection h with _ h2
        subst h2
        exact hσ
      · rename_i h1
        split at h
        · rename_i de h2
          split at h
          · rename_i val0 σ3 h3
            injection h with h
            injection h with _ h5
            subst h5
            have hwv : ¬w = v := by
              intro hh
              subst hh
              rw [hdefs] at h2
              cases h2
            rw [lookupA, if_neg hwv]
            exact ih de σ val0 σ3 hσ h3
          · cases h
        · cases h
    | neg e1 =>
      rw [evalExpr] at h
      split at h
      · rename_i x σ3 h3
        injection h with h
        injection h with _ h5
        subst h5
        exact ih e1 σ x σ3 hσ h3
      · cases h
    | bin op a b =>
      cases op with
      | add =>
        rw [evalExpr] at h
        split at h
        · rename_i x σa h3
          split at h
          · rename_i y σb h4
            injection h with h
            injection h with _ h6
            subst h6
            exact ih b σa y σb (ih a σ x σa hσ h3) h4
          · cases h
        · cases h
      | sub =>
        rw [evalExpr] at h
        split at h
        · rename_i x σa h3
          split at h
          · rename_i y σb h4
            injection h with h
            injection h with _ h6
            subst h6
            exact ih b σa y σb (ih a σ x σa hσ h3) h4
          · cases h
        · cases h
      | mul =>
        rw [evalExpr] at h
        split at h
        · rename_i x σa h3
          split at h
          · rename_i y σb h4
            injection h with h
            injection h with _ h6
            subst h6
            exact ih b σa y σb (ih a σ x σa hσ h3) h4
          · cases h
        · cases h
      | div =>
        rw [evalExpr] at h
        split at h
        · rename_i x σa h3
          split at h
          · rename_i y σb h4
            split at h
            · cases h
            · injection h with h
              injection h with _ h6
              subst h6
              exact ih b σa y σb (ih a σ x σa hσ h3) h4
          · cases h
        · cases h
      | divz =>
        rw [evalExpr] at h
        by_cases hdz2 : dz = true
        case neg => rw [if_neg hdz2] at h; cases h
        case pos =>
          rw [if_pos hdz2] at h
          split at h
          · rename_i y σb h3
            split at h
            · injection h with h
              injection h with _ h6
              subst h6
              exact ih b σ y σb hσ h3
            · split at h
              · rename_i x σa h4
                injection h with h
                injection h with _ h6
                subst h6
                exact ih a σb x σa (ih b σ y σb hσ h3) h4
              · cases h
          · cases h
      | intdiv =>
        rw [evalExpr] at h
        split at h
        · rename_i x σa h3
          split at h
          · rename_i y σb h4
            split at h
            · cases h
            · injection h with h
              injection h with _ h6
              subst h6
              exact ih b σa y σb (ih a σ x σa hσ h3) h4
          · cases h
        · cases h
      | mod =>
        rw [evalExpr] at h
        split at h
        · rename_i x σa h3
          split at h
          · rename_i y σb h4
            split at h
            · cases h
            · injection h with h
              injection h with _ h6
              subst h6
              exact ih b σa y σb (ih a σ x σa hσ h3) h4
          · cases h
        · cases h
      | pow => rw [evalExpr] at h; cases h
      | eq => rw [evalExpr] at h; cases h

theorem populateAux_missing (p : ℕ) (mk : ℤ → ZMod p) (dz : Bool) (fuel : ℕ)
    (defs : List (ℕ × Expr)) (v : ℕ) (hdefs : lookupA defs v = none) :
    ∀ vars : List ℕ, ∀ σ acc, v ∈ vars → lookupA σ v = none →
      populateAux p mk dz fuel defs vars σ acc = none := by
  intro vars
  induction vars with
  | nil =>
    intro σ acc hmem
    cases hmem
  | cons u rest ih =>
    intro σ acc hmem hσ
    rw [populateAux]
    by_cases huv : u = v
    · have hval : evalExpr p mk dz fuel (.var u) defs σ = none := by
        subst huv
        cases fuel with
        | zero => rw [evalExpr]
        | succ n =>
          rw [evalExpr]
          rw [hσ, hdefs]
      rw [hval]
    · cases h3 : evalExpr p mk dz fuel (.var u) defs σ with
      | none => rfl
      | some pr =>
        obtain ⟨val, σ2⟩ := pr
        have hmem2 : v ∈ rest := by
          rcases List.mem_cons.mp hmem with rfl | hh
          · exact absurd rfl huv
          · exact hh
        exact ih σ2 ((u, val) :: acc) hmem2
          (evalExpr_no_insert p mk dz defs v hdefs fuel (.var u) σ val σ2 hσ h3)

/-- C10: a variable of the witness map with neither a user input nor a
plain-variable definition makes `populate_variables` abort (the evaluator
indexes the definition map at a missing key and panics, modelled by `none`):
no partially populated map is ever returned, in either backend. -/
theorem C10_missing_variable (p : ℕ) (fuel : ℕ) (m : Module) (vars : List ℕ)
    (inputs : List (ℕ × ZMod p)) (v : ℕ) (hmem : v ∈ vars)
    (hinput : lookupA inputs v = none)
    (hdef : lookupA (buildDefs m.defs) v = none) :
    Plonk.populate_variables p fuel m vars inputs = none ∧
      Halo2.populate_variables p fuel m vars inputs = none :=
  ⟨populateAux_missing p (Plonk.make_constant p) true fuel (buildDefs m.defs) v hdef
      vars inputs [] hmem hinput,
    populateAux_missing p (Halo2.make_constant p) false fuel (buildDefs m.defs) v hdef
      vars inputs [] hmem hinput⟩

/-- C10 witness: a module with a single collected variable, no definitions
and no inputs. -/
theorem C10_witness :
    Plonk.populate_variables 19 5 ⟨[], [], []⟩ [1] [] = none ∧
      Halo2.populate_variables 19 5 ⟨[], [], []⟩ [1] [] = none :=
  C10_missing_variable 19 5 ⟨[], [], []⟩ [1] [] 1 (by decide) (by decide) (by decide)

/-- C1: the claim fails on the code and the code contradicts the clear intent
of its own pattern table.  In plonk/synth.rs the `c1 = c2 / v3` arm builds
`gate.witness(v3, zero, zero).constant(-(op2/op1))` without the
`.add(F::one(), F::zero())` selector that every sibling constant-LHS arm
sets, so the emitted gate reads `q_l = q_r = q_m = 0, q_c = -(c2/c1)` and its
value is `-(c2/c1)` regardless of the wires.  Concretely, for the constraint
`1 = 2 / x3` over the field of 19 elements with the satisfying witness
`x3 = 2` (both sides evaluate to 1), the emitted gate evaluates to `-2 ≠ 0`,
violating `q_l·a + q_r·b + q_m·a·b + q_o·c + q_c = 0`. -/
theorem C1_gate_algebra_code_bug :
    Plonk.evaluate_expr 19 3 (Expr.const 1) [] [(3, 2)] = some (1, [(3, 2)]) ∧
      Plonk.evaluate_expr 19 3 (Expr.bin Op.div (Expr.const 2) (Expr.var 3)) []
          [(3, 2)] = some (1, [(3, 2)]) ∧
      Plonk.gateFor 19 (Expr.const 1) (Expr.bin Op.div (Expr.const 2) (Expr.var 3)) =
        EmitResult.gate
          { a := some 3, b := none, c := none,
            qc := -(Plonk.make_constant 19 2 * (Plonk.make_constant 19 1)⁻¹) } ∧
      gateValue 19
          { a := some 3, b := none, c := none,
            qc := -(Plonk.make_constant 19 2 * (Plonk.make_constant 19 1)⁻¹) }
          [(3, 2)] ≠ 0 := by
  have e2 : Plonk.make_constant 19 2 = (2 : ZMod 19) := by decide
  have e1 : Plonk.make_constant 19 1 = (1 : ZMod 19) := by decide
  refine ⟨rfl, ?_, rfl, ?_⟩
  · have estep : Plonk.evaluate_expr 19 3 (Expr.bin Op.div (Expr.const 2) (Expr.var 3))
        [] [(3, 2)] =
        some (Plonk.make_constant 19 2 * (2 : ZMod 19)⁻¹, [(3, 2)]) := rfl
    have ecancel : (2 : ZMod 19) * (2 : ZMod 19)⁻¹ = 1 := mul_inv_cancel₀ (by decide)
    rw [estep, e2, ecancel]
  · have gv : gateValue 19
        { a := some 3, b := none, c := none,
          qc := -(Plonk.make_constant 19 2 * (Plonk.make_constant 19 1)⁻¹) }
        [(3, 2)] = -(Plonk.make_constant 19 2 * (Plonk.make_constant 19 1)⁻¹) := by
      simp [gateValue, wireVal, lookupA]
    rw [gv, e1, e2, inv_one, mul_one]
    decide

theorem Plonk.gateFor_cases (p : ℕ) (lhs rhs : Expr) :
    (∃ g, Plonk.gateFor p lhs rhs = EmitResult.gate g) ∨
      Plonk.gateFor p lhs rhs = EmitResult.fatal (Expr.bin Op.eq lhs rhs) ∨
      Plonk.gateFor p lhs rhs = EmitResult.divZero := by
  simp only [Plonk.gateFor]
  split <;>
    first
      | exact Or.inl ⟨_, rfl⟩
      | exact Or.inr (Or.inl rfl)
      | (split <;>
          first
            | exact Or.inr (Or.inr rfl)
            | exact Or.inl ⟨_, rfl⟩)

theorem Halo2.gateFor_outcomes (p : ℕ) (lhs rhs : Expr) :
    (∃ g, Halo2.gateFor p lhs rhs = EmitResult.gate g) ∨
      Halo2.gateFor p lhs rhs = EmitResult.fatal (Expr.bin Op.eq lhs rhs) ∨
      Halo2.gateFor p lhs rhs = EmitResult.divZero := by
  simp only [Halo2.gateFor]
  split <;>
    first
      | exact Or.inl ⟨_, rfl⟩
      | exact Or.inr (Or.inl rfl)
      | (split <;>
          first
            | exact Or.inr (Or.inr rfl)
            | exact Or.inl ⟨_, rfl⟩)

/-- C2 counterexample: a constraint-list expression that is not an equality —
a shape outside the normalized grammar — emits no gate and raises no error in
either backend: the `if let Expr::Infix(InfixOp::Equal, ..)` guard skips it
silently, contradicting "no constraint is silently dropped" and "any
unmatched shape is a fatal error naming the offending expression". -/
theorem C2_counterexample :
    Plonk.emitOne 19 (Expr.const 5) = EmitResult.skipped ∧
      Halo2.emitOne 19 (Expr.const 5) = EmitResult.skipped :=
  ⟨rfl, rfl⟩

/-- C2 amended: every equality constraint is dispatched to exactly one gate,
or to the fatal `unsupported constraint` panic naming the whole expression,
or (in the strict-division arms whose constant denominator is ≡ 0 mod p) to a
division-by-zero panic; a non-equality expression in the constraint list is
silently skipped, emitting neither gate nor error. -/
theorem C2_one_gate_per_equality (p : ℕ) :
    (∀ lhs rhs : Expr,
      (∃ g, Plonk.emitOne p (Expr.bin Op.eq lhs rhs) = EmitResult.gate g) ∨
        Plonk.emitOne p (Expr.bin Op.eq lhs rhs) =
          EmitResult.fatal (Expr.bin Op.eq lhs rhs) ∨
        Plonk.emitOne p (Expr.bin Op.eq lhs rhs) = EmitResult.divZero) ∧
    (∀ lhs rhs : Expr,
      (∃ g, Halo2.emitOne p (Expr.bin Op.eq lhs rhs) = EmitResult.gate g) ∨
        Halo2.emitOne p (Expr.bin Op.eq lhs rhs) =
          EmitResult.fatal (Expr.bin Op.eq lhs rhs) ∨
        Halo2.emitOne p (Expr.bin Op.eq lhs rhs) = EmitResult.divZero) ∧
    (∀ e : Expr, (∀ lhs rhs : Expr, e ≠ Expr.bin Op.eq lhs rhs) →
      Plonk.emitOne p e = EmitResult.skipped ∧
        Halo2.emitOne p e = EmitResult.skipped) := by
  refine ⟨?_, ?_, ?_⟩
  · intro lhs rhs
    exact Plonk.gateFor_cases p lhs rhs
  · intro lhs rhs
    exact Halo2.gateFor_outcomes p lhs rhs
  · intro e he
    cases e with
    | const c => exact ⟨rfl, rfl⟩
    | var v => exact ⟨rfl, rfl⟩
    | neg e1 => exact ⟨rfl, rfl⟩
    | bin op a b =>
      cases op with
      | add => exact ⟨rfl, rfl⟩
      | sub => exact ⟨rfl, rfl⟩
      | mul => exact ⟨rfl, rfl⟩
      | div => exact ⟨rfl, rfl⟩
      | divz => exact ⟨rfl, rfl⟩
      | intdiv => exact ⟨rfl, rfl⟩
      | mod => exact ⟨rfl, rfl⟩
      | pow => exact ⟨rfl, rfl⟩
      | eq => exact absurd rfl (he a b)

/-- C2 witness: the skip clause applied to the non-equality constraint `7`. -/
theorem C2_witness :
    Plonk.emitOne 19 (Expr.const 7) = EmitResult.skipped ∧
      Halo2.emitOne 19 (Expr.const 7) = EmitResult.skipped :=
  (C2_one_gate_per_equality 19).2.2 (Expr.const 7)
    (fun _ _ h => Expr.noConfusion h)

end VampIr
